import Mathlib

/-!
Verification development for the stock-trading CLI (`main.go`).

The program loads stocks from a CSV file, filters them by absolute opening
gap, spawns one goroutine per surviving stock (each computes a Position and
fetches news over HTTP), fans the per-stock `Selection` values into a
buffered channel, collects them in arrival order, and writes the result as
JSON.

Modelling conventions:
- Go `float64` values are modelled by `GoFloat`: an exact rational together
  with the IEEE special values `inf`, `neginf` and `nan`.  Rational
  arithmetic stands in for binary floating point (rounding error is not
  modelled; none of the statements below depend on it), while the special
  values follow the IEEE rules Go implements (division of a positive finite
  number by zero yields `inf`, `0 * inf` yields `nan`, every comparison with
  `nan` is false, and so on).  Signed zero is not modelled.
- Go's float-to-int conversion is implementation-defined when the value
  overflows the target type or is NaN; we model the amd64 behaviour, where
  such conversions produce the "integer indefinite" value `-2^63`.
- The network and the JSON decoder are modelled by an `HttpEvent` oracle
  passed to `FetchNews`; the concurrent fan-in of `main` is modelled by the
  list of worker messages together with an arbitrary arrival order
  (a permutation of the messages), so that every interleaving of the
  goroutines is covered.  A blocked receive that can never be unblocked is
  modelled as `Option.none`.
-/

unseal Rat.mul Rat.add Rat.sub Rat.inv

/-- Model of a Go `float64`: an exact rational, or one of the IEEE special
values positive infinity, negative infinity, and NaN. -/
inductive GoFloat where
  | num (q : ℚ)
  | inf
  | neginf
  | nan
deriving DecidableEq

/-- Floor of a rational as an integer (`fdiv` is floor division and the
denominator is positive). -/
def ratFloor (q : ℚ) : ℤ := q.num.fdiv (q.den : ℤ)

/-- Ceiling of a rational as an integer. -/
def ratCeil (q : ℚ) : ℤ := -ratFloor (-q)

/-- Truncation of a rational toward zero (the sign test is on the numerator
so that it evaluates by kernel reduction). -/
def truncQ (q : ℚ) : ℤ := if 0 ≤ q.num then ratFloor q else ratCeil q

/-- Rounding half away from zero, the behaviour of Go's `math.Round`. -/
def roundQ (q : ℚ) : ℤ := if 0 ≤ q.num then ratFloor (q + 1/2) else ratCeil (q - 1/2)

/-- IEEE addition on the model. -/
def GoFloat.add : GoFloat → GoFloat → GoFloat
  | nan, _ => nan
  | _, nan => nan
  | num a, num b => num (a + b)
  | num _, inf => inf
  | num _, neginf => neginf
  | inf, num _ => inf
  | neginf, num _ => neginf
  | inf, inf => inf
  | neginf, neginf => neginf
  | inf, neginf => nan
  | neginf, inf => nan

/-- IEEE subtraction on the model. -/
def GoFloat.sub : GoFloat → GoFloat → GoFloat
  | nan, _ => nan
  | _, nan => nan
  | num a, num b => num (a - b)
  | num _, inf => neginf
  | num _, neginf => inf
  | inf, num _ => inf
  | neginf, num _ => neginf
  | inf, inf => nan
  | inf, neginf => inf
  | neginf, inf => neginf
  | neginf, neginf => nan

/-- IEEE multiplication on the model (`0 * ±inf = nan`). -/
def GoFloat.mul : GoFloat → GoFloat → GoFloat
  | nan, _ => nan
  | _, nan => nan
  | num a, num b => num (a * b)
  | num a, inf => if 0 < a.num then inf else if a.num < 0 then neginf else nan
  | num a, neginf => if 0 < a.num then neginf else if a.num < 0 then inf else nan
  | inf, num b => if 0 < b.num then inf else if b.num < 0 then neginf else nan
  | neginf, num b => if 0 < b.num then neginf else if b.num < 0 then inf else nan
  | inf, inf => inf
  | inf, neginf => neginf
  | neginf, inf => neginf
  | neginf, neginf => inf

/-- IEEE division on the model.  Division of a finite nonzero value by zero
produces a signed infinity (signed zero is not modelled, so the zero divisor
is treated as `+0`, which is what `1 + gapPercent` evaluates to in the
program's degenerate case `gapPercent = -1`); `0/0` is `nan`. -/
def GoFloat.div : GoFloat → GoFloat → GoFloat
  | nan, _ => nan
  | _, nan => nan
  | num a, num b =>
      if b.num = 0 then (if 0 < a.num then inf else if a.num < 0 then neginf else nan)
      else num (a / b)
  | num _, inf => num 0
  | num _, neginf => num 0
  | inf, num b => if b.num < 0 then neginf else inf
  | neginf, num b => if b.num < 0 then inf else neginf
  | inf, inf => nan
  | inf, neginf => nan
  | neginf, inf => nan
  | neginf, neginf => nan

/-- Model of Go `math.Abs`. -/
def GoFloat.abs : GoFloat → GoFloat
  | num a => num |a|
  | inf => inf
  | neginf => inf
  | nan => nan

/-- Model of Go `math.Round` (round half away from zero; `±inf` and `nan`
are returned unchanged). -/
def GoFloat.round : GoFloat → GoFloat
  | num a => num (roundQ a)
  | inf => inf
  | neginf => neginf
  | nan => nan

/-- Model of the Go conversion `int(x)` on a `float64`, as compiled for
amd64: truncation toward zero for in-range finite values, and the integer
indefinite value `-2^63` for NaN, infinities and out-of-range values. -/
def GoFloat.toInt : GoFloat → ℤ
  | num a =>
      let t := truncQ a
      if t < -(2 ^ 63) ∨ 2 ^ 63 - 1 < t then -(2 ^ 63) else t
  | inf => -(2 ^ 63)
  | neginf => -(2 ^ 63)
  | nan => -(2 ^ 63)

/-- Conversion of a Go `int` to a `float64` (exact in the model). -/
def GoFloat.ofInt (n : ℤ) : GoFloat := num (n : ℚ)

/-- IEEE strict less-than: every comparison involving NaN is false. -/
def GoFloat.lt : GoFloat → GoFloat → Bool
  | nan, _ => false
  | _, nan => false
  | num a, num b => Rat.blt a b
  | num _, inf => true
  | num _, neginf => false
  | inf, num _ => false
  | neginf, num _ => true
  | inf, inf => false
  | inf, neginf => false
  | neginf, inf => true
  | neginf, neginf => false

/-- IEEE less-or-equal: every comparison involving NaN is false. -/
def GoFloat.le : GoFloat → GoFloat → Bool
  | nan, _ => false
  | _, nan => false
  | num a, num b => !Rat.blt b a
  | num _, inf => true
  | num _, neginf => false
  | inf, num _ => false
  | neginf, num _ => true
  | inf, inf => true
  | inf, neginf => false
  | neginf, inf => true
  | neginf, neginf => true

/-- The global `accountBalance = 10000.0` of `main.go`. -/
def accountBalance : GoFloat := .num 10000

/-- The global `lossTolerance = .02` of `main.go`. -/
def lossTolerance : GoFloat := .num (2/100)

/-- The global `maxLossPerTrade = accountBalance * lossTolerance`. -/
def maxLossPerTrade : GoFloat := accountBalance.mul lossTolerance

/-- The global `profitPercent = .8`. -/
def profitPercent : GoFloat := .num (8/10)

/-- The `Position` struct of `main.go`. -/
structure Position where
  EntryPrice : GoFloat
  Shares : ℤ
  TakeProfitPrice : GoFloat
  StopLossPrice : GoFloat
  Profit : GoFloat
deriving DecidableEq

/-- The `Calculate` function of `main.go` (lines 98-118), translated
operation for operation; note that the source rounds `profit` once on line
109 and again when building the struct on line 116. -/
def Calculate (gapPercent openingPrice : GoFloat) : Position :=
  let closingPrice := openingPrice.div ((GoFloat.num 1).add gapPercent)
  let gapValue := closingPrice.sub openingPrice
  let profitFromGap := profitPercent.mul gapValue
  let stopLoss := openingPrice.sub profitFromGap
  let takeProfit := openingPrice.add profitFromGap
  let shares := (maxLossPerTrade.div ((stopLoss.sub openingPrice).abs)).toInt
  let profit0 := ((openingPrice.sub takeProfit).abs).mul (GoFloat.ofInt shares)
  let profit := ((profit0.mul (GoFloat.num 100)).round).div (GoFloat.num 100)
  { EntryPrice := ((openingPrice.mul (GoFloat.num 100)).round).div (GoFloat.num 100)
    Shares := shares
    TakeProfitPrice := ((takeProfit.mul (GoFloat.num 100)).round).div (GoFloat.num 100)
    StopLossPrice := ((stopLoss.mul (GoFloat.num 100)).round).div (GoFloat.num 100)
    Profit := ((profit.mul (GoFloat.num 100)).round).div (GoFloat.num 100) }

/-- The `Stock` struct of `main.go`. -/
structure Stock where
  Ticker : String
  Gap : GoFloat
  OpeningPrice : GoFloat
deriving DecidableEq

/-- Model of Go's `strconv.ParseFloat` for the fragment of its grammar this
development uses: an optional sign followed by decimal digits with an
optional fractional part, and the keyword `NaN`, which Go accepts and maps
to an IEEE NaN without an error.  Exponents, hexadecimal floats, the
infinity keywords and case variants are not modelled; on unmodelled or
ill-formed input the function returns `none` (Go: a non-nil error). -/
def goParseFloat (s : String) : Option GoFloat :=
  match s.toList with
  | ['N', 'a', 'N'] => some .nan
  | cs =>
    let signed : Bool × List Char :=
      match cs with
      | '-' :: r => (true, r)
      | '+' :: r => (false, r)
      | r => (false, r)
    let ip := signed.2.takeWhile (·.isDigit)
    let rest := signed.2.dropWhile (·.isDigit)
    let natOfDigits : List Char → ℕ :=
      fun l => l.foldl (fun a c => a * 10 + (c.toNat - 48)) 0
    let sign : ℚ := if signed.1 then -1 else 1
    match rest with
    | [] =>
      if ip.isEmpty then none
      else some (.num (sign * (natOfDigits ip : ℚ)))
    | '.' :: fp =>
      if fp.all (·.isDigit) && !(ip.isEmpty && fp.isEmpty) then
        some (.num (sign *
          ((natOfDigits ip : ℚ) + (natOfDigits fp : ℚ) / (10 ^ fp.length : ℚ))))
      else none
    | _ => none

/-- The row loop of `Load` (`main.go` lines 52-71): for each row, `row[0]`,
`row[1]` and `row[2]` are read in source order (an out-of-range access is a
Go panic, modelled as `none`), a row whose gap or opening-price field fails
to parse is skipped with `continue` (note that `row[2]` is never read when
`row[1]` already failed to parse), and the surviving rows become `Stock`
values in file order. -/
def loadRows (parse : String → Option GoFloat) : List (List String) → Option (List Stock)
  | [] => some []
  | row :: rest =>
    match row[0]? with
    | none => none
    | some ticker =>
      match row[1]? with
      | none => none
      | some gapStr =>
        match parse gapStr with
        | none => loadRows parse rest
        | some gap =>
          match row[2]? with
          | none => none
          | some openStr =>
            match parse openStr with
            | none => loadRows parse rest
            | some openingPrice =>
              (loadRows parse rest).map
                (fun tl => ⟨ticker, gap, openingPrice⟩ :: tl)

/-- The `Load` function of `main.go` (lines 22-76) after a successful
`csv.ReadAll`, parametrised by the float parser.  `rows` is the list of
records `ReadAll` returned (for an empty readable file this list is empty).
The unconditional `rows = slices.Delete(rows, 0, 1)` on line 46 panics when
`rows` is empty, because `slices.Delete` requires `1 <= len(rows)`; the
panic is modelled as `none`. -/
def LoadP (parse : String → Option GoFloat) (rows : List (List String)) :
    Option (List Stock) :=
  match rows with
  | [] => none
  | _ :: body => loadRows parse body

/-- The filter of `main` (`main.go` lines 211-213): `slices.DeleteFunc`
removes exactly the stocks with `math.Abs(s.Gap) < .1`, so a stock is kept
iff that comparison is false (in particular a NaN gap is kept, every
comparison with NaN being false). -/
def filterStocks (stocks : List Stock) : List Stock :=
  stocks.filter (fun s => !(GoFloat.lt s.Gap.abs (.num (1/10))))

/-- The `attributes` struct of `main.go` (timestamps are modelled as
integers; their value is never computed with). -/
structure attributes where
  PublishOn : ℤ
  Title : String
deriving DecidableEq

/-- The `seekingAlphaNews` struct of `main.go`. -/
structure seekingAlphaNews where
  Attributes : attributes
deriving DecidableEq

/-- The `seekingAlphaResponse` struct of `main.go`. -/
structure seekingAlphaResponse where
  Data : List seekingAlphaNews
deriving DecidableEq

/-- The `Article` struct of `main.go`. -/
structure Article where
  PublishOn : ℤ
  Headline : String
deriving DecidableEq

/-- What the outside world does to one `FetchNews` call: the request
construction or the network round trip fails, or an HTTP response arrives
with a status code and a body.  `body = none` models a body that fails to
decode as a `seekingAlphaResponse` (in that case `json.Decode` leaves the
zero value behind); `body = some r` models a well-formed payload `r`. -/
inductive HttpEvent where
  | buildError
  | netError
  | response (status : ℤ) (body : Option seekingAlphaResponse)
deriving DecidableEq

/-- The distinct non-nil-error exits of `FetchNews`. -/
inductive FetchError where
  | build
  | network
  | status (code : ℤ)
deriving DecidableEq

/-- The `FetchNews` function of `main.go` (lines 150-185), as a function of
the `HttpEvent` the outside world produces: request-build and network
errors are returned; a status code outside 200-299 is returned as an error;
otherwise the body is decoded with `json.NewDecoder(resp.Body).Decode(res)`
whose error return is discarded on line 171, so an undecodable body leaves
`res` at its zero value and the function falls through to a nil-error
return; the articles are one per entry of `res.Data`, in order. -/
def FetchNews (ev : HttpEvent) : Except FetchError (List Article) :=
  match ev with
  | .buildError => .error .build
  | .netError => .error .network
  | .response status body =>
    if status < 200 ∨ 299 < status then .error (.status status)
    else
      let res : seekingAlphaResponse := body.getD ⟨[]⟩
      .ok (res.Data.map (fun item => ⟨item.Attributes.PublishOn, item.Attributes.Title⟩))

/-- Timeout applied to one `FetchNews` call.  `main.go` line 159 constructs
`client := &http.Client{}`: the zero value of `http.Client` has
`Timeout = 0`, which Go documents as "no timeout", and the request built on
line 151 carries no context deadline, so no bound at all is applied. -/
def fetchCallTimeout : Option ℕ := none

/-- The `Selection` struct of `main.go` (the embedded `Position` is
modelled as a named field). -/
structure Selection where
  Ticker : String
  position : Position
  Articles : List Article
deriving DecidableEq

/-- The zero value of `Selection`, which is what `selected <- Selection{}`
on line 226 of `main.go` sends when `FetchNews` returned an error: empty
ticker, zero `Position`, nil article slice. -/
def Selection.zero : Selection :=
  ⟨"", ⟨.num 0, 0, .num 0, .num 0, .num 0⟩, []⟩

/-- Body of the goroutine `main` spawns per stock (`main.go` lines
219-241): the position is computed from the stock's gap and opening price,
the news fetch runs, and on a fetch error the zero `Selection` is sent
(discarding the ticker and the computed position), otherwise the populated
`Selection` is sent. -/
def workerRun (s : Stock) (fetched : Except FetchError (List Article)) : Selection :=
  match fetched with
  | .error _ => Selection.zero
  | .ok articles => ⟨s.Ticker, Calculate s.Gap s.OpeningPrice, articles⟩

/-- The fan-out loop of `main` (`main.go` lines 218-242): one goroutine is
spawned per stock, with no pool, queue or concurrency limit.  Each list
entry stands for one spawned goroutine and holds the `Selection` it will
eventually send, or `none` when its HTTP call never returns (`net` is the
network oracle; `net t = none` models an upstream that stalls forever). -/
def spawnWorkers (net : String → Option HttpEvent) (stocks : List Stock) :
    List (Option Selection) :=
  stocks.map (fun s => (net s.Ticker).map (fun ev => workerRun s (FetchNews ev)))

/-- The multiset of messages that will ever be sent on `selectionsChan`:
one per goroutine whose fetch call returns. -/
def messages (net : String → Option HttpEvent) (stocks : List Stock) :
    List Selection :=
  (spawnWorkers net stocks).reduceOption

/-- The fan-in loop of `main` (`main.go` lines 246-251): receive from
`selectionsChan`, append, and close the channel once
`len(selections) == len(stocks)`.  `pending` is the sequence of messages
still to arrive, in arrival order; when it is exhausted before the count
reaches `n` the `range` blocks forever on a channel nobody will close or
send on again, modelled as `none`. -/
def collectLoop (n : ℕ) : List Selection → List Selection → Option (List Selection)
  | [], _ => none
  | a :: pending, acc =>
    let acc2 := acc ++ [a]
    if acc2.length = n then some acc2 else collectLoop n pending acc2

/-- The fan-in of `main`, as a function of the arrival order of the worker
messages: the collected `selections` slice, or `none` when `main` blocks
forever. -/
def runPipeline (stocks : List Stock) (arrivals : List Selection) :
    Option (List Selection) :=
  collectLoop stocks.length arrivals []

/-- A gap-up candidate used as a concrete input below. -/
def stockAAA : Stock := ⟨"AAA", .num (3/20), .num 100⟩

/-- A second candidate with a distinct ticker. -/
def stockBBB : Stock := ⟨"BBB", .num (1/5), .num 50⟩

/-- A candidate whose absolute gap is below the 0.1 threshold. -/
def stockSmallGap : Stock := ⟨"BBB", .num (1/20), .num 50⟩

/-- A news-provider stub returning fixed data for every ticker. -/
def stubNet : String → Option HttpEvent :=
  fun _ => some (.response 200 (some ⟨[⟨⟨0, "headline"⟩⟩]⟩))

/-- A network on which every fetch fails. -/
def failNet : String → Option HttpEvent := fun _ => some .netError

/-- A network on which every fetch blocks forever. -/
def stallNet : String → Option HttpEvent := fun _ => none

theorem collectLoop_cons (n : ℕ) (a : Selection) (pending acc : List Selection) :
    collectLoop n (a :: pending) acc =
      if (acc ++ [a]).length = n then some (acc ++ [a])
      else collectLoop n pending (acc ++ [a]) := rfl

theorem collectLoop_complete (n : ℕ) :
    ∀ (pending acc : List Selection), pending ≠ [] →
    acc.length + pending.length = n →
    collectLoop n pending acc = some (acc ++ pending) := by
  intro pending
  induction pending with
  | nil => intro acc h _; exact absurd rfl h
  | cons a rest ih =>
    intro acc _ hlen
    cases rest with
    | nil =>
      have h1 : (acc ++ [a]).length = n := by simp at hlen ⊢; omega
      rw [collectLoop_cons, if_pos h1]
    | cons b rest2 =>
      have h1 : (acc ++ [a]).length ≠ n := by simp at hlen ⊢; omega
      have h2 := ih (acc ++ [a]) (by simp)
        (by simp at hlen ⊢; omega)
      rw [collectLoop_cons, if_neg h1, h2]
      simp

theorem collectLoop_short (n : ℕ) :
    ∀ (pending acc : List Selection), pending.length + acc.length < n →
    collectLoop n pending acc = none := by
  intro pending
  induction pending with
  | nil => intro acc _; rfl
  | cons a rest ih =>
    intro acc h
    have h1 : (acc ++ [a]).length ≠ n := by simp at h ⊢; omega
    rw [collectLoop_cons, if_neg h1]
    exact ih (acc ++ [a]) (by simp at h ⊢; omega)

theorem messages_length_le (net : String → Option HttpEvent) (stocks : List Stock) :
    (messages net stocks).length ≤ stocks.length := by
  induction stocks with
  | nil => simp [messages, spawnWorkers]
  | cons s rest ih =>
    simp only [messages, spawnWorkers, List.map_cons] at ih ⊢
    cases h : net s.Ticker with
    | none =>
      simp [h, List.reduceOption_cons_of_none]
      omega
    | some ev =>
      simp [h, List.reduceOption_cons_of_some]
      omega

theorem messages_length_total (net : String → Option HttpEvent) (stocks : List Stock)
    (hnet : ∀ s ∈ stocks, net s.Ticker ≠ none) :
    (messages net stocks).length = stocks.length := by
  induction stocks with
  | nil => rfl
  | cons s rest ih =>
    have hs := hnet s (by simp)
    cases h : net s.Ticker with
    | none => exact absurd h hs
    | some ev =>
      have ihr := ih (fun t ht => hnet t (by simp [ht]))
      simp only [messages, spawnWorkers, List.map_cons] at ihr ⊢
      simp [h, List.reduceOption_cons_of_some, ihr]

theorem messages_length_stall (net : String → Option HttpEvent) (stocks : List Stock)
    (hstall : ∃ s ∈ stocks, net s.Ticker = none) :
    (messages net stocks).length < stocks.length := by
  induction stocks with
  | nil => simp at hstall
  | cons s rest ih =>
    cases h : net s.Ticker with
    | none =>
      have hle := messages_length_le net rest
      simp only [messages, spawnWorkers, List.map_cons] at hle ⊢
      simp [h, List.reduceOption_cons_of_none]
      omega
    | some ev =>
      obtain ⟨t, ht, htn⟩ := hstall
      rcases List.mem_cons.mp ht with rfl | ht2
      · rw [h] at htn; exact absurd htn (by simp)
      · have ihr := ih ⟨t, ht2, htn⟩
        simp only [messages, spawnWorkers, List.map_cons] at ihr ⊢
        simp [h, List.reduceOption_cons_of_some]
        omega

/-- C1: the pipeline does not produce exactly N outcomes for every N ≥ 0.
At N = 0 — a reachable state, e.g. when every loaded stock is removed by
the gap filter — `main` spawns no goroutine, never closes
`selectionsChan`, and `for sel := range selectionsChan` blocks forever, so
no ResultSet is produced at all (the Go runtime aborts with a deadlock
fault).  This theorem evaluates the model of `main`'s fan-in at that
failing input: the filter removes the only stock and the pipeline yields
no output. -/
theorem pipeline_deadlocks_on_empty_batch :
    filterStocks [stockSmallGap] = [] ∧
    runPipeline (filterStocks [stockSmallGap])
      (messages failNet (filterStocks [stockSmallGap])) = none := by decide

/-- C2 counterexample: for candidate "AAA" whose news fetch fails, the
worker emits the zero `Selection`, which is not tagged with the
originating identifier "AAA" and does not carry the Position computed from
its gap and opening price. -/
theorem worker_failure_not_tagged_cex :
    (workerRun stockAAA (FetchNews .netError)).Ticker ≠ "AAA" ∧
    (workerRun stockAAA (FetchNews .netError)).position ≠
      Calculate stockAAA.Gap stockAAA.OpeningPrice := by decide

/-- C2 (amended): on a failed news fetch the worker does not abort the
pipeline but emits the zero `Selection` — empty ticker, zero Position,
empty news list — discarding the already-computed position; consequently,
when the news provider fails for every candidate, every message the
aggregator receives is the zero `Selection`. -/
theorem worker_failure_emits_zero_selection (stocks : List Stock)
    (net : String → Option HttpEvent)
    (hfail : ∀ t ev, net t = some ev → ∃ e, FetchNews ev = .error e) :
    ∀ sel ∈ messages net stocks, sel = Selection.zero := by
  induction stocks with
  | nil => simp [messages, spawnWorkers]
  | cons s rest ih =>
    intro sel hsel
    simp only [messages, spawnWorkers, List.map_cons] at hsel
    cases h : net s.Ticker with
    | none =>
      rw [h] at hsel
      simp only [Option.map_none', List.reduceOption_cons_of_none] at hsel
      exact ih sel hsel
    | some ev =>
      rw [h] at hsel
      obtain ⟨e, he⟩ := hfail s.Ticker ev h
      simp only [Option.map_some', List.reduceOption_cons_of_some] at hsel
      rcases List.mem_cons.mp hsel with rfl | hsel2
      · rw [he]; rfl
      · exact ih sel hsel2

theorem worker_failure_emits_zero_selection_witness :
    (∀ t ev, failNet t = some ev → ∃ e, FetchNews ev = .error e) ∧
    ∀ sel ∈ messages failNet [stockAAA, stockBBB], sel = Selection.zero :=
  ⟨fun _ ev h => by
      injection h with h2
      rw [← h2]
      exact ⟨.network, rfl⟩,
   worker_failure_emits_zero_selection [stockAAA, stockBBB] failNet
     (fun _ ev h => by
       injection h with h2
       rw [← h2]
       exact ⟨.network, rfl⟩)⟩

/-- C3: the claimed "error iff" fails in the decode-failure case: on an
HTTP 200 response whose body does not decode as the expected JSON payload,
`FetchNews` discards the `json.Decode` error (line 171 of `main.go`) and
returns an empty article list with a nil error, where the claim requires a
non-nil error. -/
theorem fetchnews_decode_failure_no_error :
    FetchNews (.response 200 none) = .ok [] := rfl

/-- C4 counterexample: no finite bound W on the number of
concurrently-executing workers exists: the fan-out of `main` spawns one
goroutine per stock, so every candidate batch longer than a proposed bound
exceeds it. -/
theorem fanout_unbounded_cex :
    ¬ ∃ W : ℕ, 0 < W ∧ ∀ (net : String → Option HttpEvent) (stocks : List Stock),
      (spawnWorkers net stocks).length ≤ W := by
  rintro ⟨W, _, h⟩
  have hW := h failNet (List.replicate (W + 1) stockAAA)
  simp [spawnWorkers] at hW

/-- C4 (amended): the pipeline has no worker pool and no configurable
concurrency limit: `main` spawns exactly one goroutine per surviving
candidate, so the number of concurrent tasks equals the batch size and
grows without bound. -/
theorem fanout_one_goroutine_per_candidate (net : String → Option HttpEvent)
    (stocks : List Stock) : (spawnWorkers net stocks).length = stocks.length := by
  simp [spawnWorkers]

/-- C5 counterexample: no per-call timeout is configured on the news fetch
(the `http.Client` zero value means no timeout), and when the single
candidate's fetch never returns the pipeline produces no ResultSet at all
instead of a partial one. -/
theorem no_timeout_no_partial_result_cex :
    fetchCallTimeout = none ∧
    runPipeline [stockAAA] (messages stallNet [stockAAA]) = none := by decide

/-- C5 (amended): no per-call timeout and no run deadline exist: whenever
at least one candidate's fetch blocks forever, fewer than N messages ever
arrive, the fan-in loop never reaches its close condition, and the
pipeline blocks indefinitely, delivering no ResultSet (not even a partial
one). -/
theorem pipeline_hangs_on_stalled_fetch (stocks : List Stock)
    (net : String → Option HttpEvent) (arrivals : List Selection)
    (hstall : ∃ s ∈ stocks, net s.Ticker = none)
    (hperm : arrivals.Perm (messages net stocks)) :
    fetchCallTimeout = none ∧ runPipeline stocks arrivals = none := by
  refine ⟨rfl, ?_⟩
  have h1 : arrivals.length = (messages net stocks).length := hperm.length_eq
  have h2 := messages_length_stall net stocks hstall
  exact collectLoop_short stocks.length arrivals [] (by simp [h1]; omega)

theorem pipeline_hangs_on_stalled_fetch_witness :
    (∃ s ∈ [stockAAA], stallNet s.Ticker = none) ∧
    ([] : List Selection).Perm (messages stallNet [stockAAA]) ∧
    (fetchCallTimeout = none ∧ runPipeline [stockAAA] [] = none) :=
  ⟨⟨stockAAA, by decide, rfl⟩, by decide,
   pipeline_hangs_on_stalled_fetch [stockAAA] stallNet []
     ⟨stockAAA, by decide, rfl⟩ (by decide)⟩

/-- C6: `Calculate` is a pure, total function of its two arguments and the
fixed configuration globals: it returns a `Position` for every input with
no panic or error path (Go float arithmetic never panics; it produces
infinities and NaNs, and the float-to-int conversion of such values yields
an implementation-defined value rather than a fault).  The documented
degenerate inputs are evaluated explicitly: `gapPercent = -1` divides by
zero, propagating infinities into the stop/take prices and a NaN profit,
and `gapPercent = 0` makes the stop-loss distance zero, so the share count
is the int conversion of +Inf — values, not failures, in both cases. -/
theorem calculate_total_on_degenerate_inputs :
    (∀ g p : GoFloat, ∃ pos : Position, Calculate g p = pos) ∧
    Calculate (.num (-1)) (.num 100) = ⟨.num 100, 0, .inf, .neginf, .nan⟩ ∧
    Calculate (.num 0) (.num 100) =
      ⟨.num 100, -(2 ^ 63), .num 100, .num 100, .num 0⟩ :=
  ⟨fun g p => ⟨Calculate g p, rfl⟩, by decide, by decide⟩

/-- C7 counterexample: Go's `strconv.ParseFloat` accepts "NaN", so a CSV
row with gap field "NaN" loads as a stock with a NaN gap; `DeleteFunc`
keeps it, because `math.Abs(NaN) < 0.1` is false like every comparison
with NaN — yet `|gap| >= 0.1` does not hold for it either, refuting the
claim that every candidate reaching analysis has `|gapPercent| >= 0.1`. -/
theorem nan_gap_survives_filter_cex :
    LoadP goParseFloat [["Ticker", "Gap", "OpeningPrice"], ["XEV", "NaN", "10"]] =
      some [⟨"XEV", .nan, .num 10⟩] ∧
    (⟨"XEV", .nan, .num 10⟩ : Stock) ∈ filterStocks [⟨"XEV", .nan, .num 10⟩] ∧
    GoFloat.le (.num (1/10)) (GoFloat.abs .nan) = false := by decide

/-- C7 (amended): the minimum-gap filter runs before any analysis and a
stock is kept iff `math.Abs(gap) < 0.1` is false: every loaded stock with
`|gap| < 0.1` is removed and yields no outcome, and every candidate that
reaches analysis satisfies the negated comparison — which coincides with
`|gap| >= 0.1` for numeric gaps but also admits NaN gaps. -/
theorem filter_threshold_semantics :
    (∀ (stocks : List Stock) (s : Stock), s ∈ filterStocks stocks →
      GoFloat.lt s.Gap.abs (.num (1/10)) = false) ∧
    (∀ (stocks : List Stock) (s : Stock),
      GoFloat.lt s.Gap.abs (.num (1/10)) = true → s ∉ filterStocks stocks) := by
  constructor
  · intro stocks s hs
    have := (List.mem_filter.mp hs).2
    simpa using this
  · intro stocks s hlt hmem
    have h2 := (List.mem_filter.mp hmem).2
    rw [hlt] at h2
    simp at h2

theorem filter_threshold_semantics_witness :
    GoFloat.lt stockSmallGap.Gap.abs (.num (1/10)) = true ∧
    stockSmallGap ∉ filterStocks [stockSmallGap] :=
  ⟨by decide,
   filter_threshold_semantics.2 [stockSmallGap] stockSmallGap (by decide)⟩

/-- C8: after a successful `csv.ReadAll` whose data rows all have at least
three fields (which ReadAll's uniform-field-count rule guarantees for a
three-column file), a data row whose gap or opening-price field fails
numeric parsing contributes no stock and causes no error, and `Load`
returns exactly the stocks built from the parsable rows after the header,
in file order, with a nil error. -/
theorem load_skips_unparsable_rows (parse : String → Option GoFloat)
    (header : List String) (body : List (List String))
    (hlen : ∀ row ∈ body, 3 ≤ row.length) :
    LoadP parse (header :: body) =
      some (body.filterMap (fun row =>
        (parse (row.getD 1 "")).bind (fun gap =>
          (parse (row.getD 2 "")).map (fun op =>
            ⟨row.getD 0 "", gap, op⟩)))) := by
  show loadRows parse body = _
  induction body with
  | nil => rfl
  | cons row rest ih =>
    have h3 : 3 ≤ row.length := hlen row (by simp)
    have ihr := ih (fun r hr => hlen r (by simp [hr]))
    match row, h3 with
    | a :: b :: c :: tl, _ =>
      simp only [loadRows, List.filterMap_cons, List.getD, List.getElem?_cons_zero,
        List.getElem?_cons_succ, Option.getD_some]
      cases hb : parse b with
      | none => simpa [hb] using ihr
      | some gap =>
        cases hc : parse c with
        | none => simpa [hb, hc] using ihr
        | some op => simp [hb, hc, ihr]

theorem load_skips_unparsable_rows_witness :
    (∀ row ∈ [["A", "x", "1"], ["B", "2", "3"]], 3 ≤ List.length row) ∧
    LoadP goParseFloat [["T", "G", "O"], ["A", "x", "1"], ["B", "2", "3"]] =
      some [⟨"B", .num 2, .num 3⟩] :=
  ⟨by decide,
   (load_skips_unparsable_rows goParseFloat ["T", "G", "O"]
      [["A", "x", "1"], ["B", "2", "3"]] (by decide)).trans (by decide)⟩

/-- C9 counterexample: with a news stub returning fixed data, two runs of
the pipeline over the same two candidates that differ only in the order in
which the concurrent fetches complete produce ResultSets in different
orders: the aggregator appends in arrival order and never re-sorts by
original candidate order. -/
theorem arrival_order_nondeterminism_cex :
    ((messages stubNet [stockAAA, stockBBB]).reverse).Perm
      (messages stubNet [stockAAA, stockBBB]) ∧
    runPipeline [stockAAA, stockBBB] (messages stubNet [stockAAA, stockBBB]) ≠
      runPipeline [stockAAA, stockBBB]
        ((messages stubNet [stockAAA, stockBBB]).reverse) :=
  ⟨List.reverse_perm _, by decide⟩

/-- C9 (amended): the aggregator performs no reordering: for every arrival
order of the worker messages (any permutation of the canonical
per-candidate outcome list), the final ResultSet is exactly that arrival
order, so with a fixed stub the multiset of outcomes is deterministic
while their order depends on fetch completion order. -/
theorem pipeline_returns_arrival_order (stocks : List Stock)
    (net : String → Option HttpEvent) (arrivals : List Selection)
    (hnet : ∀ s ∈ stocks, net s.Ticker ≠ none)
    (hperm : arrivals.Perm (messages net stocks)) (hne : stocks ≠ []) :
    runPipeline stocks arrivals = some arrivals := by
  have hlen : arrivals.length = stocks.length := by
    rw [hperm.length_eq, messages_length_total net stocks hnet]
  have hane : arrivals ≠ [] := by
    intro h
    subst h
    cases stocks with
    | nil => exact hne rfl
    | cons a l => simp at hlen
  have h := collectLoop_complete stocks.length arrivals [] hane (by simpa using hlen)
  simpa [runPipeline] using h

theorem pipeline_returns_arrival_order_witness :
    (∀ s ∈ [stockAAA], stubNet s.Ticker ≠ none) ∧
    (messages stubNet [stockAAA]).Perm (messages stubNet [stockAAA]) ∧
    ([stockAAA] : List Stock) ≠ [] ∧
    runPipeline [stockAAA] (messages stubNet [stockAAA]) =
      some (messages stubNet [stockAAA]) :=
  ⟨by decide, List.Perm.refl _, by decide,
   pipeline_returns_arrival_order [stockAAA] stubNet (messages stubNet [stockAAA])
     (by decide) (List.Perm.refl _) (by decide)⟩

/-- C10: a readable CSV file with zero rows is a valid input on which
`Load` neither returns a stock list nor an error: `csv.ReadAll` yields an
empty record list, and the unconditional header deletion
`slices.Delete(rows, 0, 1)` requires `1 <= len(rows)` and panics on the
empty list. -/
theorem load_panics_on_empty_csv : LoadP goParseFloat [] = none := by decide
